import Mathlib

/-!
Shallow embedding of `src/HttpClient.ts` (kurax/huijiwiki-client).

The TypeScript class `HttpClient` builds MediaWiki API query strings from a
parameter record, issues GET/POST requests, and checks the response envelope
for `warnings` (logged) and `errors` (thrown).  Below, the pure serialization
helpers are translated directly; the effectful parts (`get`, `post`, `query`)
are modelled by passing the server's response envelope as an explicit input
and returning the serialized request pairs, the emitted event trace, and the
`Except` outcome.  JavaScript objects are modelled as association lists in
property-insertion order (the `for ... in` iteration order for the
non-integer-like keys that MediaWiki parameters use); `URLSearchParams` is an
association list with the `set` semantics of replacing the first matching
entry and deleting any later duplicates.
-/

namespace HuijiWiki

/-- The `Primitive` type of `HttpClient.ts` line 9:
`string | number | boolean | Date | null | undefined`.
JavaScript numbers are modelled as integers (every value used by the API
parameters in this client is integral); a `Date` is modelled by its ISO-8601
string, which is all `createSearchParams` observes via `toISOString()`. -/
inductive Primitive where
  | str (s : String)
  | num (n : Int)
  | bool (b : Bool)
  | date (iso : String)
  | null
  | undef
  deriving DecidableEq, Repr

/-- A parameter value: `Primitive | Primitive[]`. -/
inductive ParamValue where
  | prim (p : Primitive)
  | arr (l : List Primitive)
  deriving DecidableEq, Repr

/-- The `MediaWikiError` interface (lines 12-16): `{code, text, module}`. -/
structure MediaWikiError where
  code : String
  text : String
  module : String
  deriving DecidableEq, Repr

/-- The runtime shape of the `errors` field: the server may send a single
object or an array, and `checkErrors` normalizes with
`Array.isArray(errors) ? errors : [errors]`. -/
inductive ErrorsField where
  | single (e : MediaWikiError)
  | array (es : List MediaWikiError)
  deriving DecidableEq, Repr

/-- `boolean | string`, the declared type of `batchcomplete` (line 32). -/
inductive BoolOrString where
  | bool (b : Bool)
  | str (s : String)
  deriving DecidableEq, Repr

/-- The response envelope `MediaWikiResponseBody` (lines 25-29) together with
the action-specific payload fields, abstracted as `payload : α`. -/
structure MediaWikiResponseBody (α : Type) where
  warnings : Option (List MediaWikiError) := none
  errors : Option ErrorsField := none
  docref : Option String := none
  payload : α
  deriving DecidableEq, Repr

/-- The extra fields of `QueryResponseBody<T>` (lines 31-34). -/
structure QueryPayload (T : Type) where
  batchcomplete : BoolOrString
  query : T
  deriving DecidableEq, Repr

/-- JavaScript `String.prototype.includes` with a one-character needle, as in
`value.includes('|')`. -/
def includesChar (s : String) (c : Char) : Bool :=
  s.data.any (fun a => a == c)

/-- JavaScript `Array.prototype.join(sep)` on an array of strings. -/
def joinWith (sep : String) : List String → String
  | [] => ""
  | [s] => s
  | s :: rest => s ++ sep ++ joinWith sep rest

/-- The argument of `toValues` after `createSearchParams` has converted
primitives to strings: a single string or an array of strings
(`values.map(String)` is the identity on an array of strings). -/
inductive ConvValue where
  | scalar (s : String)
  | array (l : List String)
  deriving DecidableEq, Repr

/-- `toValues` (lines 56-65): join an array with `|`, or, when some element
contains `|`, with the unit separator `\x1f` prefixed by `\x1f`; a scalar
containing `|` is prefixed with `\x1f`. -/
def toValues : ConvValue → String
  | .array values =>
    if values.any (fun value => includesChar value '|') then
      "\x1f" ++ joinWith "\x1f" values
    else
      joinWith "|" values
  | .scalar value =>
    if includesChar value '|' then "\x1f" ++ value else value

/-- The `convert` closure of `createSearchParams` (lines 69-73): booleans
become the empty string, dates their ISO form, everything else its JavaScript
`String(...)` form (`String(null) = "null"`, `String(undefined) =
"undefined"`). -/
def convert : Primitive → String
  | .bool _ => ""
  | .date iso => iso
  | .str s => s
  | .num n => toString n
  | .null => "null"
  | .undef => "undefined"

/-- The skip guard of the loop (line 76):
`value == null || (typeof value === 'boolean' && value === false)`. -/
def isSkipped : ParamValue → Bool
  | .prim .null => true
  | .prim .undef => true
  | .prim (.bool false) => true
  | _ => false

/-- One key's serialized value: `none` when the loop `continue`s, otherwise
the string stored by `search.set(key, this.toValues(value))` (lines 76-78). -/
def serializeValue (value : ParamValue) : Option String :=
  if isSkipped value then none
  else
    some (match value with
      | .prim p => toValues (.scalar (convert p))
      | .arr l => toValues (.array (l.map convert)))

/-- Remove every entry with the given key (the deletion half of
`URLSearchParams.set`). -/
def removeEntry {β : Type} : List (String × β) → String → List (String × β)
  | [], _ => []
  | kv :: rest, k => if kv.1 = k then removeEntry rest k else kv :: removeEntry rest k

/-- `URLSearchParams.set` / JavaScript property assignment: replace the first
entry with the given key in place (deleting later duplicates), or append the
entry when the key is absent. -/
def setEntry {β : Type} : List (String × β) → String → β → List (String × β)
  | [], k, v => [(k, v)]
  | kv :: rest, k, v =>
    if kv.1 = k then (k, v) :: removeEntry rest k else kv :: setEntry rest k v

/-- `URLSearchParams.get` / property lookup: the value of the first entry with
the given key. -/
def getEntry {β : Type} : List (String × β) → String → Option β
  | [], _ => none
  | kv :: rest, k => if kv.1 = k then some kv.2 else getEntry rest k

/-- One iteration of the `for (const key in params)` loop of
`createSearchParams` (lines 74-79). -/
def addParam (search : List (String × String)) (kv : String × ParamValue) :
    List (String × String) :=
  match serializeValue kv.2 with
  | none => search
  | some v => setEntry search kv.1 v

/-- `createSearchParams` (lines 67-84): process every caller key in iteration
order, then unconditionally set `format=json`, `formatversion=2`,
`errorformat=plaintext`. -/
def createSearchParams (params : List (String × ParamValue)) :
    List (String × String) :=
  setEntry
    (setEntry
      (setEntry (params.foldl addParam []) "format" "json")
      "formatversion" "2")
    "errorformat" "plaintext"

/-- `Object.fromEntries(search.entries())` as used by `post` (line 105):
repeated property assignment into a fresh object. -/
def objectFromEntries (l : List (String × String)) : List (String × String) :=
  l.foldl (fun obj kv => setEntry obj kv.1 kv.2) []

/-- The log/throw message format shared by `checkWarnings` and `checkErrors`:
a template literal `[<module>] <code>: <text>`. -/
def formatError (e : MediaWikiError) : String :=
  "[" ++ e.module ++ "] " ++ e.code ++ ": " ++ e.text

/-- `checkWarnings` (lines 86-89): the list of log lines emitted, one per
warning, in order (`chalk.yellow` only colours the text and is dropped). -/
def checkWarnings : Option (List MediaWikiError) → List String
  | none => []
  | some warnings => warnings.map formatError

/-- The normalization `Array.isArray(errors) ? errors : [errors]` (line 93). -/
def ErrorsField.toArray : ErrorsField → List MediaWikiError
  | .array es => es
  | .single e => [e]

/-- The aggregated message thrown by `checkErrors` (line 93):
entries formatted and joined by newlines. -/
def errorsMessage (errors : ErrorsField) : String :=
  joinWith "\n" ((ErrorsField.toArray errors).map formatError)

/-- `checkErrors` (lines 91-95): `none` when nothing is thrown, `some msg`
when `throw new Error(msg)` fires. -/
def checkErrors : Option ErrorsField → Option String
  | none => none
  | some errors => some (errorsMessage errors)

/-- An observable step of processing a response: a `console.warn` line or a
thrown error. -/
inductive Event where
  | warn (line : String)
  | raise (msg : String)
  deriving DecidableEq, Repr

/-- The event trace of lines 99-100 / 106-107: `checkWarnings` runs to
completion, then `checkErrors` may throw. -/
def responseEvents {α : Type} (r : MediaWikiResponseBody α) : List Event :=
  (checkWarnings r.warnings).map Event.warn ++
    (match checkErrors r.errors with
      | some msg => [Event.raise msg]
      | none => [])

/-- The outcome of a `get`/`post` call after the envelope checks: the thrown
error, or the parsed body returned unchanged (lines 100-101 / 107-108). -/
def responseResult {α : Type} (r : MediaWikiResponseBody α) :
    Except String (MediaWikiResponseBody α) :=
  match checkErrors r.errors with
  | some msg => Except.error msg
  | none => Except.ok r

/-- Everything observable about one HTTP call: the serialized key/value pairs
sent to the server, the event trace while handling the response, and the
value returned (or error thrown) to the caller. -/
structure HttpCall (ρ : Type) where
  sentPairs : List (String × String)
  events : List Event
  result : Except String ρ
  deriving Repr

/-- `get` (lines 97-102), with the server's response envelope passed as an
explicit input: sends `createSearchParams params` as the query string, then
runs the warning and error checks on the parsed body. -/
def get {α : Type} (params : List (String × ParamValue))
    (response : MediaWikiResponseBody α) : HttpCall (MediaWikiResponseBody α) :=
  { sentPairs := createSearchParams params
    events := responseEvents response
    result := responseResult response }

/-- `post` (lines 104-109): same checks and return contract as `get`, but the
pairs travel as `form: Object.fromEntries(search.entries())`. -/
def post {α : Type} (params : List (String × ParamValue))
    (response : MediaWikiResponseBody α) : HttpCall (MediaWikiResponseBody α) :=
  { sentPairs := objectFromEntries (createSearchParams params)
    events := responseEvents response
    result := responseResult response }

/-- `query` (lines 111-114): `{ ...params, action: 'query' }` overrides the
caller's `action` in place, the request goes through `get`, and only the
`query` field of the payload is returned. -/
def query {T : Type} (params : List (String × ParamValue))
    (response : MediaWikiResponseBody (QueryPayload T)) : HttpCall T :=
  let call := get (setEntry params "action" (ParamValue.prim (.str "query"))) response
  { sentPairs := call.sentPairs
    events := call.events
    result := call.result.map (fun result => result.payload.query) }

/-- The fields of the parsed `package.json` that `getUserAgent` reads:
`packageJson.version` and `packageJson.dependencies.got`; `none` models the
field (or its parent object) being absent, i.e. `undefined`. -/
structure PackageJson where
  version : Option String
  dependencies_got : Option String
  deriving DecidableEq, Repr

/-- The state of the packaging-metadata file as `getUserAgent` observes it:
absent (`fs.existsSync` false), present but rejected by `JSON.parse` (which
throws the given error), or parsed. -/
inductive MetadataFile where
  | missing
  | unparseable (err : String)
  | parsed (packageJson : PackageJson)
  deriving DecidableEq, Repr

/-- JavaScript `String.prototype.replace('^', '')`: remove the first
occurrence of `'^'`. -/
def stripFirstCaret (s : String) : String :=
  let rec go : List Char → List Char
    | [] => []
    | c :: cs => if c = '^' then cs else c :: go cs
  String.mk (go s.data)

/-- `getUserAgent` (lines 46-54).  Only a missing file keeps the
`HuijiMWClient/Unknown` fallback; a file that `JSON.parse` rejects makes the
uncaught exception escape (the `JSON.parse` call on line 50 is not wrapped in
any `try`), and a parsed file without `dependencies.got` makes
`.replace` throw a `TypeError`.  An absent `version` field interpolates as
the string `"undefined"`. -/
def getUserAgent : MetadataFile → Except String String
  | .missing => .ok "HuijiMWClient/Unknown"
  | .unparseable err => .error err
  | .parsed packageJson =>
    match packageJson.dependencies_got with
    | none => .error "TypeError: Cannot read properties of undefined"
    | some got =>
      .ok ("HuijiMWClient/" ++ (packageJson.version.getD "undefined") ++
        " Got/" ++ stripFirstCaret got)

section Entries

variable {β : Type}

theorem getEntry_removeEntry_ne (l : List (String × β)) (k k' : String) (h : k' ≠ k) :
    getEntry (removeEntry l k) k' = getEntry l k' := by
  induction l with
  | nil => rfl
  | cons kv rest ih =>
    by_cases hk : kv.1 = k
    · have hne : kv.1 ≠ k' := by rw [hk]; exact Ne.symm h
      simp only [removeEntry, getEntry, if_pos hk, if_neg hne, ih]
    · by_cases hk' : kv.1 = k'
      · simp only [removeEntry, getEntry, if_neg hk, if_pos hk']
      · simp only [removeEntry, getEntry, if_neg hk, if_neg hk', ih]

theorem getEntry_setEntry_self (l : List (String × β)) (k : String) (v : β) :
    getEntry (setEntry l k v) k = some v := by
  induction l with
  | nil => simp [setEntry, getEntry]
  | cons kv rest ih =>
    by_cases hk : kv.1 = k
    · simp [setEntry, getEntry, hk]
    · simp [setEntry, getEntry, hk, ih]

theorem getEntry_setEntry_ne (l : List (String × β)) (k k' : String) (v : β)
    (h : k' ≠ k) : getEntry (setEntry l k v) k' = getEntry l k' := by
  induction l with
  | nil => simp [setEntry, getEntry, Ne.symm h]
  | cons kv rest ih =>
    by_cases hk : kv.1 = k
    · have hne : kv.1 ≠ k' := by rw [hk]; exact Ne.symm h
      have hne2 : (k, v).1 ≠ k' := Ne.symm h
      simp only [setEntry, getEntry, if_pos hk, if_neg hne, if_neg hne2]
      exact getEntry_removeEntry_ne rest k k' h
    · by_cases hk' : kv.1 = k'
      · simp only [setEntry, getEntry, if_neg hk, if_pos hk']
      · simp only [setEntry, getEntry, if_neg hk, if_neg hk', ih]

theorem not_mem_removeEntry (l : List (String × β)) (k : String) (w : β) :
    (k, w) ∉ removeEntry l k := by
  induction l with
  | nil => simp [removeEntry]
  | cons kv rest ih =>
    by_cases hk : kv.1 = k
    · simpa [removeEntry, hk] using ih
    · simp only [removeEntry, hk, if_false, List.mem_cons]
      rintro (rfl | hmem)
      · exact hk rfl
      · exact ih hmem

theorem mem_removeEntry_ne (l : List (String × β)) (k k' : String) (w : β)
    (h : k' ≠ k) : (k', w) ∈ removeEntry l k ↔ (k', w) ∈ l := by
  induction l with
  | nil => simp [removeEntry]
  | cons kv rest ih =>
    by_cases hk : kv.1 = k
    · have hne : (k', w) ≠ kv := by
        intro heq
        exact h (by rw [← heq] at hk; exact hk)
      simp [removeEntry, hk, ih, hne]
    · simp [removeEntry, hk, ih]

theorem mem_setEntry_self (l : List (String × β)) (k : String) (v w : β) :
    (k, w) ∈ setEntry l k v ↔ w = v := by
  induction l with
  | nil => simp [setEntry]
  | cons kv rest ih =>
    by_cases hk : kv.1 = k
    · simp [setEntry, hk, not_mem_removeEntry rest k w]
    · have hne : (k, w) ≠ kv := by
        intro heq
        exact hk (by rw [← heq])
      simp [setEntry, hk, hne, ih]

theorem mem_setEntry_ne (l : List (String × β)) (k k' : String) (v : β) (w : β)
    (h : k' ≠ k) : (k', w) ∈ setEntry l k v ↔ (k', w) ∈ l := by
  induction l with
  | nil => simp [setEntry, h]
  | cons kv rest ih =>
    by_cases hk : kv.1 = k
    · have hne : (k', w) ≠ (k, v) := by
        intro heq
        exact h (congrArg Prod.fst heq)
      have hne2 : (k', w) ≠ kv := by
        intro heq
        exact h (by rw [← heq] at hk; exact hk)
      simp [setEntry, hk, hne, hne2, mem_removeEntry_ne rest k k' w h]
    · simp [setEntry, hk, ih]

theorem mem_keys_removeEntry (l : List (String × β)) (k a : String)
    (h : a ∈ (removeEntry l k).map Prod.fst) : a ∈ l.map Prod.fst := by
  induction l with
  | nil => simp [removeEntry] at h
  | cons kv rest ih =>
    by_cases hk : kv.1 = k
    · simp only [removeEntry, hk, if_true] at h
      simp [ih h]
    · simp only [removeEntry, hk, if_false, List.map_cons, List.mem_cons] at h
      rcases h with h | h
      · simp [h]
      · simp [ih h]

theorem key_not_mem_keys_removeEntry (l : List (String × β)) (k : String) :
    k ∉ (removeEntry l k).map Prod.fst := by
  induction l with
  | nil => simp [removeEntry]
  | cons kv rest ih =>
    by_cases hk : kv.1 = k
    · simpa [removeEntry, hk] using ih
    · simp only [removeEntry, hk, if_false, List.map_cons, List.mem_cons]
      rintro (h | h)
      · exact hk h.symm
      · exact ih h

theorem nodup_keys_removeEntry (l : List (String × β)) (k : String)
    (h : (l.map Prod.fst).Nodup) : ((removeEntry l k).map Prod.fst).Nodup := by
  induction l with
  | nil => simp [removeEntry]
  | cons kv rest ih =>
    simp only [List.map_cons, List.nodup_cons] at h
    by_cases hk : kv.1 = k
    · simp [removeEntry, hk, ih h.2]
    · simp only [removeEntry, hk, if_false, List.map_cons, List.nodup_cons]
      exact ⟨fun hmem => h.1 (mem_keys_removeEntry rest k kv.1 hmem), ih h.2⟩

theorem mem_keys_setEntry (l : List (String × β)) (k : String) (v : β) (a : String)
    (h : a ∈ (setEntry l k v).map Prod.fst) : a = k ∨ a ∈ l.map Prod.fst := by
  induction l with
  | nil => simpa [setEntry] using h
  | cons kv rest ih =>
    by_cases hk : kv.1 = k
    · simp only [setEntry, hk, if_true, List.map_cons, List.mem_cons] at h
      rcases h with h | h
      · exact Or.inl h
      · exact Or.inr (by simp [mem_keys_removeEntry rest k a h])
    · simp only [setEntry, hk, if_false, List.map_cons, List.mem_cons] at h
      rcases h with h | h
      · exact Or.inr (by simp [h])
      · rcases ih h with h | h
        · exact Or.inl h
        · exact Or.inr (by simp [h])

theorem nodup_keys_setEntry (l : List (String × β)) (k : String) (v : β)
    (h : (l.map Prod.fst).Nodup) : ((setEntry l k v).map Prod.fst).Nodup := by
  induction l with
  | nil => simp [setEntry]
  | cons kv rest ih =>
    simp only [List.map_cons, List.nodup_cons] at h
    by_cases hk : kv.1 = k
    · simp only [setEntry, hk, if_true, List.map_cons, List.nodup_cons]
      exact ⟨key_not_mem_keys_removeEntry rest k, nodup_keys_removeEntry rest k h.2⟩
    · simp only [setEntry, hk, if_false, List.map_cons, List.nodup_cons]
      refine ⟨fun hmem => ?_, ih h.2⟩
      rcases mem_keys_setEntry rest k v kv.1 hmem with heq | hmem2
      · exact hk heq
      · exact h.1 hmem2

theorem nodup_value_unique (l : List (String × β)) (k : String) (v w : β)
    (h : (l.map Prod.fst).Nodup) (hv : (k, v) ∈ l) (hw : (k, w) ∈ l) : w = v := by
  induction l with
  | nil => simp at hv
  | cons kv rest ih =>
    simp only [List.map_cons, List.nodup_cons] at h
    simp only [List.mem_cons] at hv hw
    rcases hv with hv | hv <;> rcases hw with hw | hw
    · have heq : (k, w) = (k, v) := hw.trans hv.symm
      exact (Prod.mk.injEq _ _ _ _ ▸ heq).2
    · exact absurd (List.mem_map_of_mem Prod.fst hw) (by rw [← hv] at h; exact h.1)
    · exact absurd (List.mem_map_of_mem Prod.fst hv) (by rw [← hw] at h; exact h.1)
    · exact ih h.2 hv hw

end Entries

theorem getEntry_foldl_addParam_skip (params : List (String × ParamValue))
    (k : String) (h : ∀ v, (k, v) ∈ params → serializeValue v = none) :
    ∀ init, getEntry (params.foldl addParam init) k = getEntry init k := by
  induction params with
  | nil => intro init; rfl
  | cons kv rest ih =>
    intro init
    rw [List.foldl_cons]
    rw [ih (fun v hv => h v (List.mem_cons_of_mem kv hv))]
    match hser : serializeValue kv.2 with
    | none => rw [addParam, hser]
    | some s =>
      have hne : k ≠ kv.1 := by
        intro heq
        have : serializeValue kv.2 = none := h kv.2 (by rw [heq]; exact List.mem_cons_self kv rest)
        rw [this] at hser
        exact Option.noConfusion hser
      rw [addParam, hser]
      exact getEntry_setEntry_ne init kv.1 k s hne

theorem getEntry_foldl_addParam_unique (params : List (String × ParamValue))
    (k : String) (v : ParamValue) (s : String) (hmem : (k, v) ∈ params)
    (huni : ∀ w, (k, w) ∈ params → w = v) (hser : serializeValue v = some s) :
    ∀ init, getEntry (params.foldl addParam init) k = some s := by
  induction params with
  | nil => simp at hmem
  | cons kv rest ih =>
    intro init
    rw [List.foldl_cons]
    by_cases hk : kv.1 = k
    · have hv : kv.2 = v := huni kv.2 (by
        have : (kv.1, kv.2) ∈ kv :: rest := List.mem_cons_self kv rest
        rw [hk] at this
        exact this)
      by_cases hrest : ∃ w, (k, w) ∈ rest
      · obtain ⟨w, hw⟩ := hrest
        have hwv : w = v := huni w (List.mem_cons_of_mem kv hw)
        exact ih (hwv ▸ hw) (fun u hu => huni u (List.mem_cons_of_mem kv hu)) _
      · have hnone : ∀ u, (k, u) ∈ rest → serializeValue u = none := by
          intro u hu
          exact absurd ⟨u, hu⟩ hrest
        rw [getEntry_foldl_addParam_skip rest k hnone]
        rw [addParam, hv, hser, hk]
        exact getEntry_setEntry_self init k s
    · rcases List.mem_cons.mp hmem with heq | hmem2
      · exact absurd (congrArg Prod.fst heq.symm) hk
      · exact ih hmem2 (fun u hu => huni u (List.mem_cons_of_mem kv hu)) _

theorem nodup_keys_foldl_addParam (params : List (String × ParamValue)) :
    ∀ init : List (String × String), (init.map Prod.fst).Nodup →
      ((params.foldl addParam init).map Prod.fst).Nodup := by
  induction params with
  | nil => intro init h; exact h
  | cons kv rest ih =>
    intro init h
    rw [List.foldl_cons]
    refine ih _ ?_
    match hser : serializeValue kv.2 with
    | none => rw [addParam, hser]; exact h
    | some s => rw [addParam, hser]; exact nodup_keys_setEntry init kv.1 s h

theorem nodup_keys_createSearchParams (params : List (String × ParamValue)) :
    ((createSearchParams params).map Prod.fst).Nodup := by
  unfold createSearchParams
  exact nodup_keys_setEntry _ _ _
    (nodup_keys_setEntry _ _ _
      (nodup_keys_setEntry _ _ _
        (nodup_keys_foldl_addParam params [] (by simp))))

theorem getEntry_createSearchParams_not_reserved (params : List (String × ParamValue))
    (k : String) (h1 : k ≠ "format") (h2 : k ≠ "formatversion")
    (h3 : k ≠ "errorformat") :
    getEntry (createSearchParams params) k = getEntry (params.foldl addParam []) k := by
  unfold createSearchParams
  rw [getEntry_setEntry_ne _ _ _ _ h3, getEntry_setEntry_ne _ _ _ _ h2,
    getEntry_setEntry_ne _ _ _ _ h1]

theorem foldl_setEntry_cons_acc (l : List (String × String)) (k : String) (v : String)
    (h : k ∉ l.map Prod.fst) :
    ∀ acc, l.foldl (fun obj kv => setEntry obj kv.1 kv.2) ((k, v) :: acc) =
      (k, v) :: l.foldl (fun obj kv => setEntry obj kv.1 kv.2) acc := by
  induction l with
  | nil => intro acc; rfl
  | cons kv rest ih =>
    intro acc
    have hk : ¬((k, v).1 = kv.1) := by
      intro heq
      exact h (by simp [← heq])
    rw [List.foldl_cons, List.foldl_cons]
    have hstep : setEntry ((k, v) :: acc) kv.1 kv.2 = (k, v) :: setEntry acc kv.1 kv.2 := by
      simp only [setEntry, if_neg hk]
    rw [hstep]
    exact ih (fun hmem => h (by simp [hmem])) _

theorem objectFromEntries_eq_self (l : List (String × String))
    (h : (l.map Prod.fst).Nodup) : objectFromEntries l = l := by
  induction l with
  | nil => rfl
  | cons kv rest ih =>
    simp only [List.map_cons, List.nodup_cons] at h
    show (kv :: rest).foldl (fun obj kv => setEntry obj kv.1 kv.2) [] = kv :: rest
    rw [List.foldl_cons]
    have hinit : setEntry ([] : List (String × String)) kv.1 kv.2 = [(kv.1, kv.2)] := rfl
    rw [hinit]
    calc rest.foldl (fun obj kv => setEntry obj kv.1 kv.2) [(kv.1, kv.2)]
        = (kv.1, kv.2) :: rest.foldl (fun obj kv => setEntry obj kv.1 kv.2) [] :=
          foldl_setEntry_cons_acc rest kv.1 kv.2 h.1 []
      _ = kv :: rest := by
          have h2 : rest.foldl (fun obj kv => setEntry obj kv.1 kv.2) [] = rest := by
            have h3 := ih h.2
            rwa [objectFromEntries] at h3
          rw [h2]

/-- A sample fatal error entry, used to instantiate claims on concrete data. -/
def sampleError : MediaWikiError :=
  { code := "nosuchaction", text := "bad action", module := "main" }

/-- A sample warning entry. -/
def sampleWarning : MediaWikiError :=
  { code := "deprecation", text := "old param", module := "query" }

/-- A response envelope carrying a single (non-array) `errors` object. -/
def sampleErrorBody : MediaWikiResponseBody Unit :=
  { errors := some (.single sampleError), payload := () }

/-- A query response envelope carrying a single `errors` object. -/
def sampleQueryErrorBody : MediaWikiResponseBody (QueryPayload Nat) :=
  { errors := some (.single sampleError)
    payload := { batchcomplete := .bool true, query := 0 } }

/-- A response envelope with one warning and no errors. -/
def sampleWarnBody : MediaWikiResponseBody Unit :=
  { warnings := some [sampleWarning], payload := () }

/-- A response envelope with both a warning and an `errors` array. -/
def sampleBothBody : MediaWikiResponseBody Unit :=
  { warnings := some [sampleWarning], errors := some (.array [sampleError])
    payload := () }

/-- A query response envelope with no warnings and no errors. -/
def sampleQueryOkBody : MediaWikiResponseBody (QueryPayload Nat) :=
  { payload := { batchcomplete := .bool true, query := 42 } }

/-- Claim C1: whenever the response envelope's `errors` field is present,
`get`, `post`, and `query` all fail with a single error whose message
concatenates the entries as `[<module>] <code>: <text>` separated by
newlines, in order; a single `errors` object is normalized to a one-element
sequence by `ErrorsField.toArray`; the outcome is `Except.error`, so the
failure propagates to the caller and no result value is returned. -/
theorem get_post_query_fail_on_errors {α T : Type}
    (params qparams : List (String × ParamValue))
    (r : MediaWikiResponseBody α) (qr : MediaWikiResponseBody (QueryPayload T))
    (ev : ErrorsField) (hr : r.errors = some ev) (hqr : qr.errors = some ev) :
    (get params r).result =
      .error (joinWith "\n" ((ErrorsField.toArray ev).map formatError)) ∧
    (post params r).result =
      .error (joinWith "\n" ((ErrorsField.toArray ev).map formatError)) ∧
    (query qparams qr).result =
      .error (joinWith "\n" ((ErrorsField.toArray ev).map formatError)) := by
  refine ⟨?_, ?_, ?_⟩ <;>
    simp [get, post, query, responseResult, checkErrors, errorsMessage, hr, hqr,
      Except.map]

/-- Witness for C1 at a concrete envelope carrying a single `errors` object. -/
theorem get_post_query_fail_on_errors_witness :
    (get [] sampleErrorBody).result = .error "[main] nosuchaction: bad action" ∧
    (post [] sampleErrorBody).result = .error "[main] nosuchaction: bad action" ∧
    (query [] sampleQueryErrorBody).result =
      .error "[main] nosuchaction: bad action" :=
  get_post_query_fail_on_errors [] [] sampleErrorBody sampleQueryErrorBody
    (.single sampleError) rfl rfl

/-- Claim C2: for every parameter mapping, the serialized output contains the
keys `format`, `formatversion`, `errorformat` with exactly the values `json`,
`2`, `plaintext` — any pair in the output with one of those keys has the
fixed value, whatever the caller supplied. -/
theorem createSearchParams_forces_format_keys (params : List (String × ParamValue)) :
    (∀ v, ("format", v) ∈ createSearchParams params ↔ v = "json") ∧
    (∀ v, ("formatversion", v) ∈ createSearchParams params ↔ v = "2") ∧
    (∀ v, ("errorformat", v) ∈ createSearchParams params ↔ v = "plaintext") := by
  unfold createSearchParams
  refine ⟨fun v => ?_, fun v => ?_, fun v => ?_⟩
  · rw [mem_setEntry_ne _ _ _ _ _ (by decide), mem_setEntry_ne _ _ _ _ _ (by decide),
      mem_setEntry_self]
  · rw [mem_setEntry_ne _ _ _ _ _ (by decide), mem_setEntry_self]
  · rw [mem_setEntry_self]

/-- Witness for C2 at a mapping that tries to override `format`. -/
theorem createSearchParams_forces_format_keys_witness :
    ("format", "json") ∈ createSearchParams [("format", ParamValue.prim (.str "xml"))] ∧
    ¬ ("format", "xml") ∈ createSearchParams [("format", ParamValue.prim (.str "xml"))] := by
  constructor
  · exact ((createSearchParams_forces_format_keys
      [("format", ParamValue.prim (.str "xml"))]).1 "json").mpr rfl
  · intro hmem
    exact absurd (((createSearchParams_forces_format_keys
      [("format", ParamValue.prim (.str "xml"))]).1 "xml").mp hmem) (by decide)

/-- Claim C3: `toValues` joins an array with `|` when no element contains
`|`; when some element contains `|` it produces the unit separator followed
by the elements joined by the unit separator; a scalar containing `|` becomes
the unit separator followed by the scalar unchanged. -/
theorem toValues_pipe_handling :
    (∀ l : List String, l.any (fun s => includesChar s '|') = false →
      toValues (.array l) = joinWith "|" l) ∧
    (∀ l : List String, l.any (fun s => includesChar s '|') = true →
      toValues (.array l) = "\x1f" ++ joinWith "\x1f" l) ∧
    (∀ s : String, includesChar s '|' = true →
      toValues (.scalar s) = "\x1f" ++ s) := by
  refine ⟨fun l h => ?_, fun l h => ?_, fun s h => ?_⟩ <;> simp [toValues, h]

/-- Witness for C3 on concrete arrays and a concrete scalar. -/
theorem toValues_pipe_handling_witness :
    toValues (.array ["a", "b"]) = joinWith "|" ["a", "b"] ∧
    toValues (.array ["a|b", "c"]) = "\x1f" ++ joinWith "\x1f" ["a|b", "c"] ∧
    toValues (.scalar "a|b") = "\x1f" ++ "a|b" :=
  ⟨toValues_pipe_handling.1 ["a", "b"] (by decide),
   toValues_pipe_handling.2.1 ["a|b", "c"] (by decide),
   toValues_pipe_handling.2.2 "a|b" (by decide)⟩

/-- Counterexample to C4 as stated: the key `format` supplied with the
skipped value `undefined` still appears in the serialized output, because the
reserved keys are unconditionally set afterwards. -/
theorem skipped_key_absent_counterexample :
    ¬ (∀ (params : List (String × ParamValue)) (k : String) (v : ParamValue),
        (k, v) ∈ params → isSkipped v = true →
        getEntry (createSearchParams params) k = none) := by
  intro h
  exact absurd
    (h [("action", .prim (.str "query")), ("format", .prim .undef)] "format"
      (.prim .undef) (by decide) (by decide))
    (by decide)

/-- Claim C4, amended: for a parameter mapping (with the unique keys of a
JavaScript object), a key other than the reserved `format`, `formatversion`,
`errorformat` whose value is `null`/`undefined` or the boolean `false` never
appears in the serialized output, and such a key whose value is the boolean
`true` appears with the empty string as its value.  (The reserved keys always
appear, with their fixed values, whatever value the caller gave them.) -/
theorem createSearchParams_skipped_and_true_keys (params : List (String × ParamValue))
    (k : String) (v : ParamValue) (hnd : (params.map Prod.fst).Nodup)
    (hmem : (k, v) ∈ params) (h1 : k ≠ "format") (h2 : k ≠ "formatversion")
    (h3 : k ≠ "errorformat") :
    (isSkipped v = true → getEntry (createSearchParams params) k = none) ∧
    (v = ParamValue.prim (.bool true) →
      getEntry (createSearchParams params) k = some "") := by
  constructor
  · intro hskip
    rw [getEntry_createSearchParams_not_reserved params k h1 h2 h3]
    rw [getEntry_foldl_addParam_skip params k ?_ []]
    · rfl
    · intro w hw
      rw [nodup_value_unique params k v w hnd hmem hw]
      simp [serializeValue, hskip]
  · intro htrue
    rw [getEntry_createSearchParams_not_reserved params k h1 h2 h3]
    refine getEntry_foldl_addParam_unique params k v "" hmem ?_ ?_ []
    · intro w hw
      exact nodup_value_unique params k v w hnd hmem hw
    · rw [htrue]
      decide

/-- Witness for the amended C4 on a mapping with a `null` key and a `true`
key. -/
theorem createSearchParams_skipped_and_true_keys_witness :
    getEntry (createSearchParams
      [("a", ParamValue.prim .null), ("b", ParamValue.prim (.bool true))]) "a" = none ∧
    getEntry (createSearchParams
      [("a", ParamValue.prim .null), ("b", ParamValue.prim (.bool true))]) "b" = some "" :=
  ⟨(createSearchParams_skipped_and_true_keys _ "a" (.prim .null)
      (by decide) (by decide) (by decide) (by decide) (by decide)).1 rfl,
   (createSearchParams_skipped_and_true_keys _ "b" (.prim (.bool true))
      (by decide) (by decide) (by decide) (by decide) (by decide)).2 rfl⟩

/-- Claim C5: on an envelope with `warnings` but no `errors`, `get` and
`post` emit one log line per warning, formatted `[<module>] <code>: <text>`
in server order, and then succeed, returning the full parsed body
unchanged. -/
theorem get_post_warnings_logged_then_success {α : Type}
    (params : List (String × ParamValue)) (r : MediaWikiResponseBody α)
    (ws : List MediaWikiError) (hw : r.warnings = some ws) (he : r.errors = none) :
    (get params r).events = ws.map (fun w => Event.warn (formatError w)) ∧
    (get params r).result = .ok r ∧
    (post params r).events = ws.map (fun w => Event.warn (formatError w)) ∧
    (post params r).result = .ok r := by
  refine ⟨?_, ?_, ?_, ?_⟩ <;>
    simp [get, post, responseEvents, responseResult, checkWarnings, checkErrors,
      hw, he]

/-- Witness for C5 at an envelope with one warning and no errors. -/
theorem get_post_warnings_logged_then_success_witness :
    (get [] sampleWarnBody).events = [Event.warn "[query] deprecation: old param"] ∧
    (get [] sampleWarnBody).result = .ok sampleWarnBody ∧
    (post [] sampleWarnBody).events = [Event.warn "[query] deprecation: old param"] ∧
    (post [] sampleWarnBody).result = .ok sampleWarnBody :=
  get_post_warnings_logged_then_success [] sampleWarnBody [sampleWarning] rfl rfl

/-- Claim C6: `query` forces `action=query` into the sent parameters,
overriding any caller-supplied `action`; on the spec's example mapping the
serialized pairs are exactly
`action=query&list=foo&format=json&formatversion=2&errorformat=plaintext`;
and on success only the `query` sub-field of the parsed envelope is
returned. -/
theorem query_forces_action_and_unwraps {T : Type}
    (params : List (String × ParamValue))
    (r : MediaWikiResponseBody (QueryPayload T)) (he : r.errors = none) :
    getEntry (query params r).sentPairs "action" = some "query" ∧
    (query [("action", ParamValue.prim (.str "ignoredOnPurpose")),
            ("list", ParamValue.prim (.str "foo"))] r).sentPairs =
      [("action", "query"), ("list", "foo"), ("format", "json"),
       ("formatversion", "2"), ("errorformat", "plaintext")] ∧
    (query params r).result = .ok r.payload.query := by
  refine ⟨?_, ?_, ?_⟩
  · show getEntry (createSearchParams
      (setEntry params "action" (ParamValue.prim (.str "query")))) "action" = some "query"
    rw [getEntry_createSearchParams_not_reserved _ "action" (by decide) (by decide)
      (by decide)]
    refine getEntry_foldl_addParam_unique _ "action" (ParamValue.prim (.str "query"))
      "query" ?_ ?_ (by decide) []
    · exact (mem_setEntry_self params "action" _ _).mpr rfl
    · intro w hw
      exact (mem_setEntry_self params "action" _ _).mp hw
  · show createSearchParams
      (setEntry [("action", ParamValue.prim (.str "ignoredOnPurpose")),
        ("list", ParamValue.prim (.str "foo"))] "action"
        (ParamValue.prim (.str "query"))) =
      [("action", "query"), ("list", "foo"), ("format", "json"),
       ("formatversion", "2"), ("errorformat", "plaintext")]
    decide
  · simp [query, get, responseResult, checkErrors, he, Except.map]

/-- Witness for C6 at a concrete error-free query response. -/
theorem query_forces_action_and_unwraps_witness :
    getEntry (query [("action", ParamValue.prim (.str "ignoredOnPurpose"))]
      sampleQueryOkBody).sentPairs "action" = some "query" ∧
    (query [("action", ParamValue.prim (.str "ignoredOnPurpose"))]
      sampleQueryOkBody).result = .ok 42 :=
  ⟨(query_forces_action_and_unwraps _ sampleQueryOkBody rfl).1,
   (query_forces_action_and_unwraps _ sampleQueryOkBody rfl).2.2⟩

/-- Counterexample to C7 as stated: when the metadata file is present but
`JSON.parse` rejects it, `getUserAgent` does not fall back to the `Unknown`
token — the parse exception escapes (there is no `try` around line 50), so
construction fails. -/
theorem getUserAgent_parse_failure_counterexample :
    getUserAgent (.unparseable "SyntaxError: Unexpected token") =
      .error "SyntaxError: Unexpected token" ∧
    getUserAgent (.unparseable "SyntaxError: Unexpected token") ≠
      .ok "HuijiMWClient/Unknown" :=
  ⟨rfl, fun h => Except.noConfusion h⟩

/-- Claim C7, amended: construction tolerates a missing packaging-metadata
file, silently falling back to the literal `Unknown` version token; but if
the file exists and cannot be parsed, the parse failure propagates and
construction fails. -/
theorem getUserAgent_missing_fallback :
    getUserAgent .missing = .ok "HuijiMWClient/Unknown" ∧
    ∀ err, getUserAgent (.unparseable err) = .error err :=
  ⟨rfl, fun _ => rfl⟩

/-- Claim C8: for every parameter mapping, the form pairs sent by `post` are
exactly the query-string pairs sent by `get` — `Object.fromEntries` is the
identity on the duplicate-free output of `createSearchParams`. -/
theorem post_sends_same_pairs_as_get {α : Type}
    (params : List (String × ParamValue)) (r r' : MediaWikiResponseBody α) :
    (post params r).sentPairs = (get params r').sentPairs := by
  show objectFromEntries (createSearchParams params) = createSearchParams params
  exact objectFromEntries_eq_self _ (nodup_keys_createSearchParams params)

/-- Claim C9: a `null`/`undefined` element of an array value is not dropped:
array values are always serialized (the skip guard only matches top-level
`null`/`undefined`/`false`), each element goes through `convert`, which turns
`null` into the string `"null"` and `undefined` into `"undefined"`, and those
strings take part in the joined value — in contrast to a top-level
`null`/`undefined`, whose key is omitted. -/
theorem array_null_undefined_elements :
    (∀ l : List Primitive,
      serializeValue (.arr l) = some (toValues (.array (l.map convert)))) ∧
    convert .null = "null" ∧
    convert .undef = "undefined" ∧
    (∀ l : List Primitive, Primitive.null ∈ l → "null" ∈ l.map convert) ∧
    (∀ l : List Primitive, Primitive.undef ∈ l → "undefined" ∈ l.map convert) ∧
    serializeValue (.arr [.str "a", .null, .undef]) = some "a|null|undefined" ∧
    serializeValue (.prim .null) = none ∧
    serializeValue (.prim .undef) = none := by
  refine ⟨fun l => rfl, rfl, rfl, fun l hl => ?_, fun l hl => ?_, by decide, rfl, rfl⟩
  · exact List.mem_map_of_mem convert hl
  · exact List.mem_map_of_mem convert hl

/-- Witness for C9 on arrays containing `null` and `undefined`. -/
theorem array_null_undefined_elements_witness :
    "null" ∈ [Primitive.str "a", Primitive.null].map convert ∧
    "undefined" ∈ [Primitive.undef].map convert :=
  ⟨array_null_undefined_elements.2.2.2.1 _ (by decide),
   array_null_undefined_elements.2.2.2.2.1 _ (by decide)⟩

/-- Claim C10: on an envelope with both `warnings` and `errors`, the event
trace of `get` and of `post` is every warning line, in order, followed by the
thrown aggregated error — the warning check runs to completion before the
error check throws. -/
theorem warnings_logged_before_error_raised {α : Type}
    (params : List (String × ParamValue)) (r : MediaWikiResponseBody α)
    (ws : List MediaWikiError) (ev : ErrorsField)
    (hw : r.warnings = some ws) (he : r.errors = some ev) :
    (get params r).events =
      ws.map (fun w => Event.warn (formatError w)) ++ [Event.raise (errorsMessage ev)] ∧
    (post params r).events =
      ws.map (fun w => Event.warn (formatError w)) ++ [Event.raise (errorsMessage ev)] := by
  constructor <;>
    simp [get, post, responseEvents, checkWarnings, checkErrors, hw, he]

/-- Witness for C10 at an envelope with one warning and one error. -/
theorem warnings_logged_before_error_raised_witness :
    (get [] sampleBothBody).events =
      [Event.warn "[query] deprecation: old param",
       Event.raise "[main] nosuchaction: bad action"] ∧
    (post [] sampleBothBody).events =
      [Event.warn "[query] deprecation: old param",
       Event.raise "[main] nosuchaction: bad action"] :=
  warnings_logged_before_error_raised [] sampleBothBody [sampleWarning]
    (.array [sampleError]) rfl rfl

end HuijiWiki
